import Mathlib

/-!
# REST API performance-testing handlers (Go variants)

A shallow embedding of the four Go Lambda handlers

* `src/golang/go-no/main.go`                 (passthrough),
* `src/golang/go-delay/main.go`              (delayed),
* `src/golang/go-delay_action_small/main.go` (delayed + light storage),
* `src/golang/go-delay_action_mid/main.go`   (delayed + heavy storage).

Every handler is a straight-line Go function.  Each call that leaves the
handler (sleep, JSON encoding, configuration loading, file access, key
generation, object-store calls) is answered by an environment `Env` and is
recorded, in program order, in the `trace` of the returned `Outcome`.
Every call that returns a value is made at most once per invocation, so
answering it by a function of its arguments loses no generality.
-/

namespace RestApiPerf

/-! ## Data model -/

/-- Go byte slices and Go strings are both plain byte sequences and the
conversion `string(b)` keeps the content; both are represented by `String`. -/
abbrev Bytes := String

/-- The Go conversion `string(eventJSON)`. -/
def string (b : Bytes) : String := b

/-- A Go `error` value.  `external` is an error handed back by a library call,
`errorf ctx cause` is `fmt.Errorf("<ctx>: %w", cause)`. -/
inductive Error where
  | external (msg : String)
  | errorf (ctx : String) (cause : Error)
  deriving DecidableEq, Repr

/-- A Go `map[string]V`; `none` is the nil map.  Keys are looked up from the
front of the association list. -/
abbrev GoMap (V : Type) := Option (List (String × V))

/-- The comma-ok index expression `v, exists := m[k]`: the zero value and
`false` when the key is absent (a nil map has no keys). -/
def GoMap.index {V : Type} [Inhabited V] (m : GoMap V) (k : String) : V × Bool :=
  match m with
  | none => (default, false)
  | some kvs =>
    match kvs.lookup k with
    | none => (default, false)
    | some v => (v, true)

/-- Modelled from the spec: the type `events.APIGatewayProxyRequest` of the
hosting library is not part of the repository.  The spec describes it as a
structured inbound HTTP-style event (path, headers, query, stage variables,
body); the handlers read only `StageVariables` and pass the whole value to
the JSON encoder. -/
structure APIGatewayProxyRequest where
  Resource : String := ""
  Path : String := ""
  HTTPMethod : String := ""
  Headers : GoMap String := none
  MultiValueHeaders : GoMap (List String) := none
  QueryStringParameters : GoMap String := none
  MultiValueQueryStringParameters : GoMap (List String) := none
  PathParameters : GoMap String := none
  StageVariables : GoMap String := none
  RequestContext : String := ""
  Body : String := ""
  IsBase64Encoded : Bool := false
  deriving DecidableEq, Repr

/-- Modelled from the spec: the type `events.APIGatewayProxyResponse` of the
hosting library is not part of the repository.  The spec gives the response
shape as a status code and a body string, next to headers, multi-value
headers and the base64 flag.  The defaults are the Go zero values, so `{}` is
the literal `events.APIGatewayProxyResponse{}`. -/
structure APIGatewayProxyResponse where
  StatusCode : Int := 0
  Headers : GoMap String := none
  MultiValueHeaders : GoMap (List String) := none
  Body : String := ""
  IsBase64Encoded : Bool := false
  deriving DecidableEq, Repr

/-- The argument of `client.PutObject`: `s3.PutObjectInput{Bucket, Key, Body}`. -/
structure PutObjectInput where
  Bucket : String
  Key : String
  Body : String
  deriving DecidableEq, Repr

/-- The argument of `client.DeleteObject`: `s3.DeleteObjectInput{Bucket, Key}`. -/
structure DeleteObjectInput where
  Bucket : String
  Key : String
  deriving DecidableEq, Repr

/-- One recorded call, in program order.  `ok` tells whether the call returned
a nil error. -/
inductive Effect where
  | sleep (ms : Nat)
  | jsonMarshal (ok : Bool)
  | loadDefaultConfig (ok : Bool)
  | osOpen (filePath : String) (ok : Bool)
  | readAll (ok : Bool)
  | fileClose
  | jsonUnmarshal (ok : Bool)
  | newFromConfig
  | uuidNewString (key : String)
  | putObject (bucket key body : String) (ok : Bool)
  | deleteObject (bucket key : String) (ok : Bool)
  deriving DecidableEq, Repr

/-- The world outside a handler: the library types the handlers only pass
around, and the answer of every library call they make. -/
structure Env where
  /-- Stands for `context.Context`. -/
  Context : Type
  /-- Stands for `aws.Config`. -/
  Config : Type
  /-- Stands for `*s3.Client`. -/
  Client : Type
  /-- Stands for `*os.File`. -/
  File : Type
  /-- Stands for `map[string]interface{}`. -/
  JsonData : Type
  /-- Stands for `*s3.PutObjectOutput`. -/
  PutObjectOutput : Type
  /-- Stands for `*s3.DeleteObjectOutput`. -/
  DeleteObjectOutput : Type
  /-- Answer of `json.Marshal(event)`. -/
  jsonMarshal : APIGatewayProxyRequest → Except Error Bytes
  /-- Answer of `config.LoadDefaultConfig(ctx)`. -/
  loadDefaultConfig : Context → Except Error Config
  /-- Answer of `os.Open(filePath)`. -/
  osOpen : String → Except Error File
  /-- Answer of `ioutil.ReadAll(file)`. -/
  readAll : File → Except Error Bytes
  /-- Answer of `json.Unmarshal(fileContents, &jsonData)`. -/
  jsonUnmarshal : Bytes → Except Error JsonData
  /-- Answer of `s3.NewFromConfig(cfg)`. -/
  newFromConfig : Config → Client
  /-- Answer of `uuid.NewString()` in this invocation. -/
  uuidNewString : String
  /-- Answer of `client.PutObject(ctx, input)`. -/
  putObject : Client → Context → PutObjectInput → Except Error PutObjectOutput
  /-- Answer of `client.DeleteObject(ctx, input)`. -/
  deleteObject : Client → Context → DeleteObjectInput → Except Error DeleteObjectOutput

/-- What one invocation produces: the returned pair
`(events.APIGatewayProxyResponse, error)` (`none` is the nil error) and the
calls it made. -/
structure Outcome where
  response : APIGatewayProxyResponse
  err : Option Error
  trace : List Effect
  deriving DecidableEq, Repr

/-- The pair the Go function returns. -/
def Outcome.result (o : Outcome) : APIGatewayProxyResponse × Option Error :=
  (o.response, o.err)

/-! ## go-no : passthrough handler -/

namespace GoNo

/-- Embeds `handleRequest` of `go-no/main.go`. -/
def handleRequest (E : Env) (_ctx : E.Context) (event : APIGatewayProxyRequest) : Outcome :=
  match E.jsonMarshal event with
  | .error err =>
    ⟨{}, some (.errorf "error marshaling event to JSON" err), [.jsonMarshal false]⟩
  | .ok eventJSON =>
    ⟨{ Body := string eventJSON, StatusCode := 200 }, none, [.jsonMarshal true]⟩

end GoNo

/-! ## go-delay : delayed handler -/

namespace GoDelay

/-- Embeds `handleRequest` of `go-delay/main.go`. -/
def handleRequest (E : Env) (_ctx : E.Context) (event : APIGatewayProxyRequest) : Outcome :=
  -- time.Sleep(300 * time.Millisecond)
  match E.jsonMarshal event with
  | .error err =>
    ⟨{}, some (.errorf "error marshaling event to JSON" err),
      [.sleep 300, .jsonMarshal false]⟩
  | .ok eventJSON =>
    ⟨{ Body := string eventJSON, StatusCode := 200 }, none,
      [.sleep 300, .jsonMarshal true]⟩

end GoDelay

/-! ## go-delay_action_small : delayed + light storage handler -/

namespace GoDelayActionSmall

/-- Embeds `HandleRequest` of `go-delay_action_small/main.go`.  Each return
lists the calls made up to that point. -/
def HandleRequest (E : Env) (ctx : E.Context) (event : APIGatewayProxyRequest) : Outcome :=
  -- time.Sleep(300 * time.Millisecond); eventJSON, err := json.Marshal(event)
  match E.jsonMarshal event with
  | .error err =>
    ⟨{}, some (.errorf "error marshaling event to JSON" err),
      [.sleep 300, .jsonMarshal false]⟩
  | .ok eventJSON =>
  -- cfg, err := config.LoadDefaultConfig(ctx)
  match E.loadDefaultConfig ctx with
  | .error err =>
    ⟨{}, some (.errorf "error loading AWS configuration" err),
      [.sleep 300, .jsonMarshal true, .loadDefaultConfig false]⟩
  | .ok cfg =>
  -- bucketName, exists := event.StageVariables["testBucketName"]
  match event.StageVariables.index "testBucketName" with
  | (_, false) =>
    ⟨{ StatusCode := 400, Body := "Bucket name not provided in stage variables" }, none,
      [.sleep 300, .jsonMarshal true, .loadDefaultConfig true]⟩
  | (bucketName, true) =>
  let client := E.newFromConfig cfg
  let objectKey := E.uuidNewString
  match E.putObject client ctx ⟨bucketName, objectKey, string eventJSON⟩ with
  | .error err =>
    ⟨{}, some (.errorf "error putting object into S3 bucket" err),
      [.sleep 300, .jsonMarshal true, .loadDefaultConfig true, .newFromConfig,
       .uuidNewString objectKey,
       .putObject bucketName objectKey (string eventJSON) false]⟩
  | .ok _ =>
  -- time.Sleep(100 * time.Millisecond), then client.DeleteObject
  match E.deleteObject client ctx ⟨bucketName, objectKey⟩ with
  | .error err =>
    ⟨{}, some (.errorf "error deleting object from S3 bucket" err),
      [.sleep 300, .jsonMarshal true, .loadDefaultConfig true, .newFromConfig,
       .uuidNewString objectKey,
       .putObject bucketName objectKey (string eventJSON) true,
       .sleep 100,
       .deleteObject bucketName objectKey false]⟩
  | .ok _ =>
    ⟨{ StatusCode := 200, Body := string eventJSON }, none,
      [.sleep 300, .jsonMarshal true, .loadDefaultConfig true, .newFromConfig,
       .uuidNewString objectKey,
       .putObject bucketName objectKey (string eventJSON) true,
       .sleep 100,
       .deleteObject bucketName objectKey true]⟩

end GoDelayActionSmall

/-! ## go-delay_action_mid : delayed + heavy storage handler -/

namespace GoDelayActionMid

/-- Embeds `readFileContents` of `go-delay_action_mid/main.go`: the contents or
an error, and the calls made (the deferred `file.Close()` runs last). -/
def readFileContents (E : Env) (filePath : String) : Except Error Bytes × List Effect :=
  match E.osOpen filePath with
  | .error err =>
    (.error (.errorf "error opening file" err), [.osOpen filePath false])
  | .ok file =>
    match E.readAll file with
    | .error err =>
      (.error (.errorf "error reading file contents" err),
        [.osOpen filePath true, .readAll false, .fileClose])
    | .ok contents =>
      (.ok contents, [.osOpen filePath true, .readAll true, .fileClose])

/-- Embeds `HandleRequest` of `go-delay_action_mid/main.go`.  Each return lists
the calls made up to that point. -/
def HandleRequest (E : Env) (ctx : E.Context) (event : APIGatewayProxyRequest) : Outcome :=
  -- time.Sleep(300 * time.Millisecond); eventJSON, err := json.Marshal(event)
  match E.jsonMarshal event with
  | .error err =>
    ⟨{}, some (.errorf "error marshaling event to JSON" err),
      [.sleep 300, .jsonMarshal false]⟩
  | .ok eventJSON =>
  -- cfg, err := config.LoadDefaultConfig(ctx)
  match E.loadDefaultConfig ctx with
  | .error err =>
    ⟨{}, some (.errorf "error loading AWS configuration" err),
      [.sleep 300, .jsonMarshal true, .loadDefaultConfig false]⟩
  | .ok cfg =>
  -- bucketName, exists := event.StageVariables["testBucketName"]
  match event.StageVariables.index "testBucketName" with
  | (_, false) =>
    ⟨{ StatusCode := 400, Body := "Bucket name not provided in stage variables" }, none,
      [.sleep 300, .jsonMarshal true, .loadDefaultConfig true]⟩
  | (bucketName, true) =>
  let filePath := "assets/large_mock.json"
  match readFileContents E filePath with
  | (.error err, fileCalls) =>
    ⟨{}, some (.errorf "error reading JSON file" err),
      [.sleep 300, .jsonMarshal true, .loadDefaultConfig true] ++ fileCalls⟩
  | (.ok fileContents, fileCalls) =>
  -- json.Unmarshal(fileContents, &jsonData); the parsed value is not used
  match E.jsonUnmarshal fileContents with
  | .error err =>
    ⟨{}, some (.errorf "error parsing JSON file" err),
      [.sleep 300, .jsonMarshal true, .loadDefaultConfig true] ++ fileCalls
        ++ [.jsonUnmarshal false]⟩
  | .ok _ =>
  let client := E.newFromConfig cfg
  let objectKey := E.uuidNewString
  match E.putObject client ctx ⟨bucketName, objectKey, string eventJSON⟩ with
  | .error err =>
    ⟨{}, some (.errorf "error putting object into S3 bucket" err),
      [.sleep 300, .jsonMarshal true, .loadDefaultConfig true] ++ fileCalls
        ++ [.jsonUnmarshal true, .newFromConfig, .uuidNewString objectKey,
            .putObject bucketName objectKey (string eventJSON) false]⟩
  | .ok _ =>
  -- time.Sleep(100 * time.Millisecond), then client.DeleteObject
  match E.deleteObject client ctx ⟨bucketName, objectKey⟩ with
  | .error err =>
    ⟨{}, some (.errorf "error deleting object from S3 bucket" err),
      [.sleep 300, .jsonMarshal true, .loadDefaultConfig true] ++ fileCalls
        ++ [.jsonUnmarshal true, .newFromConfig, .uuidNewString objectKey,
            .putObject bucketName objectKey (string eventJSON) true,
            .sleep 100,
            .deleteObject bucketName objectKey false]⟩
  | .ok _ =>
    ⟨{ StatusCode := 200, Body := string eventJSON }, none,
      [.sleep 300, .jsonMarshal true, .loadDefaultConfig true] ++ fileCalls
        ++ [.jsonUnmarshal true, .newFromConfig, .uuidNewString objectKey,
            .putObject bucketName objectKey (string eventJSON) true,
            .sleep 100,
            .deleteObject bucketName objectKey true]⟩

end GoDelayActionMid

/-! ## Concrete environments, used to run the handlers on explicit inputs -/

/-- Turns a success flag into a library answer. -/
def answer (ok : Bool) (msg : String) : Except Error Unit :=
  if ok then .ok () else .error (.external msg)

/-- A concrete environment.  The flags say which library calls succeed; the
encoder answers with the fixed text `json`, the asset file holds `asset` and
the generated key is `key`. -/
def mkEnv (marshalOk configOk openOk readOk parseOk putOk deleteOk : Bool)
    (json asset key : String) : Env where
  Context := Unit
  Config := Unit
  Client := Unit
  File := Unit
  JsonData := Unit
  PutObjectOutput := Unit
  DeleteObjectOutput := Unit
  jsonMarshal := fun _ => if marshalOk then .ok json else .error (.external "marshal")
  loadDefaultConfig := fun _ => answer configOk "config"
  osOpen := fun _ => answer openOk "open"
  readAll := fun _ => if readOk then .ok asset else .error (.external "read")
  jsonUnmarshal := fun _ => answer parseOk "parse"
  newFromConfig := fun _ => ()
  uuidNewString := key
  putObject := fun _ _ _ => answer putOk "put"
  deleteObject := fun _ _ _ => answer deleteOk "delete"

/-- A request whose stage variables are `sv` and whose body is `body`. -/
def mkEvent (sv : GoMap String) (body : String) : APIGatewayProxyRequest :=
  { Path := "/test", HTTPMethod := "POST", StageVariables := sv, Body := body }

/-- The environment in which every library call succeeds. -/
def okEnv : Env := mkEnv true true true true true true true "J" "A" "k"

/-- A request whose stage variables name the bucket `b`. -/
def bucketEvent : APIGatewayProxyRequest :=
  mkEvent (some [("stage", "dev"), ("testBucketName", "b")]) "hello"

/-- A request whose stage variables map testBucketName to the empty string. -/
def emptyBucketEvent : APIGatewayProxyRequest :=
  mkEvent (some [("testBucketName", "")]) "hello"

/-- The environment in which the asset file cannot be opened and every other
library call succeeds. -/
def noAssetEnv : Env := mkEnv true true false true true true true "J" "A" "k"

/-! ## Observations on an outcome -/

/-- The value stored under a key, `none` when the key is absent (a nil map
has no keys). -/
def GoMap.find? {V : Type} (m : GoMap V) (k : String) : Option V :=
  match m with
  | none => none
  | some kvs => kvs.lookup k

/-- The literal returned on the missing-bucket path. -/
def bucketMissingResponse : APIGatewayProxyResponse :=
  { StatusCode := 400, Body := "Bucket name not provided in stage variables" }

/-- Object-store calls: `PutObject` and `DeleteObject`. -/
def Effect.isStoreCall : Effect → Bool
  | .putObject _ _ _ _ => true
  | .deleteObject _ _ _ => true
  | _ => false

/-- Calls to `time.Sleep`. -/
def Effect.isSleep : Effect → Bool
  | .sleep _ => true
  | _ => false

/-- Calls of the asset step of the heavy handler: opening, reading, closing
and parsing the asset file. -/
def Effect.isAssetCall : Effect → Bool
  | .osOpen _ _ => true
  | .readAll _ => true
  | .fileClose => true
  | .jsonUnmarshal _ => true
  | _ => false

/-- The object-store calls of a trace, in order: what a mock store records. -/
def storeCalls (t : List Effect) : List Effect := t.filter Effect.isStoreCall

/-- The sleeps and object-store calls of a trace, in order. -/
def sleepsAndStoreCalls (t : List Effect) : List Effect :=
  t.filter (fun e => e.isSleep || e.isStoreCall)

/-- Whether the asset file `assets/large_mock.json` can be opened, read in full
and parsed as JSON in this environment. -/
def assetLoads (E : Env) : Bool :=
  match E.osOpen "assets/large_mock.json" with
  | .error _ => false
  | .ok file =>
    match E.readAll file with
    | .error _ => false
    | .ok contents =>
      match E.jsonUnmarshal contents with
      | .error _ => false
      | .ok _ => true

/-- Modelled from the spec: the fake object store of the testable properties
is not part of the repository.  It maps (bucket, key) to the stored bytes; a
successful put stores the object, a successful delete removes it, a failed
call changes nothing. -/
abbrev MockStore := List ((String × String) × String)

/-- Modelled from the spec: the effect of one recorded call on the fake
object store. -/
def MockStore.record (s : MockStore) : Effect → MockStore
  | .putObject bucket key body true =>
    ((bucket, key), body) :: s.filter (fun e => !(e.1 == (bucket, key)))
  | .deleteObject bucket key true => s.filter (fun e => !(e.1 == (bucket, key)))
  | _ => s

/-- Modelled from the spec: the content of an initially empty fake object
store after the calls of a trace. -/
def MockStore.replay (t : List Effect) : MockStore := t.foldl MockStore.record []

/-- The shape of the sleeps of a storage handler trace.  The first call is the
300 ms sleep and no later call is.  Then either no put succeeded, and there is
neither a 100 ms sleep nor a delete; or the trace ends with a successful put,
the 100 ms sleep and the delete of the same object, in this order, and nothing
before them is a 100 ms sleep or an object-store call. -/
def SleepSchedule (t : List Effect) : Prop :=
  (∃ rest, t = .sleep 300 :: rest ∧ Effect.sleep 300 ∉ rest
      ∧ ∃ ok, Effect.jsonMarshal ok ∈ rest)
    ∧ (((∀ b k body, Effect.putObject b k body true ∉ t) ∧ Effect.sleep 100 ∉ t
          ∧ ∀ b k ok, Effect.deleteObject b k ok ∉ t)
        ∨ ∃ pre b k body ok,
            t = pre ++ [.putObject b k body true, .sleep 100, .deleteObject b k ok]
              ∧ ∀ e ∈ pre, e ≠ .sleep 100 ∧ e.isStoreCall = false)

/-! ## Theorems -/

/-- C1: for every request whose JSON serialization succeeds, the passthrough
handler and the delayed handler return no error and the response with status
code 200, body equal to the serialization, and headers, multi-value headers
and base64 flag at their zero values. -/
theorem C1_echo_handlers_return_200 (E : Env) (ctx : E.Context)
    (event : APIGatewayProxyRequest) (eventJSON : Bytes)
    (hser : E.jsonMarshal event = .ok eventJSON) :
    (GoNo.handleRequest E ctx event).result =
        ({ StatusCode := 200, Headers := none, MultiValueHeaders := none,
           Body := string eventJSON, IsBase64Encoded := false }, none)
      ∧ (GoDelay.handleRequest E ctx event).result =
        ({ StatusCode := 200, Headers := none, MultiValueHeaders := none,
           Body := string eventJSON, IsBase64Encoded := false }, none) := by
  simp [GoNo.handleRequest, GoDelay.handleRequest, Outcome.result, hser]

/-- Witness for C1 on a concrete request. -/
theorem C1_echo_handlers_return_200_witness :
    (GoNo.handleRequest (mkEnv true true true true true true true "J" "A" "k") ()
        (mkEvent none "hello")).result =
        ({ StatusCode := 200, Headers := none, MultiValueHeaders := none,
           Body := "J", IsBase64Encoded := false }, none)
      ∧ (GoDelay.handleRequest (mkEnv true true true true true true true "J" "A" "k") ()
        (mkEvent none "hello")).result =
        ({ StatusCode := 200, Headers := none, MultiValueHeaders := none,
           Body := "J", IsBase64Encoded := false }, none) :=
  C1_echo_handlers_return_200 (mkEnv true true true true true true true "J" "A" "k") ()
    (mkEvent none "hello") "J" rfl

/-! ### Map lookups -/

theorem GoMap.index_of_find_none (m : GoMap String) (k : String)
    (h : m.find? k = none) : m.index k = ("", false) := by
  cases m with
  | none => rfl
  | some kvs =>
    simp only [GoMap.find?] at h
    simp [GoMap.index, h]

theorem GoMap.index_of_find_some (m : GoMap String) (k v : String)
    (h : m.find? k = some v) : m.index k = (v, true) := by
  cases m with
  | none => simp [GoMap.find?] at h
  | some kvs =>
    simp only [GoMap.find?] at h
    simp [GoMap.index, h]

/-! ### Missing bucket -/

/-- C2 (as amended): for every request that serializes successfully, whose
stage variables do not contain the key testBucketName, and for which the
object-store access configuration loads, both storage handlers return no
error and exactly the 400 response, whatever the rest of the request and the
rest of the environment are. -/
theorem C2_missing_bucket_returns_400 (E : Env) (ctx : E.Context)
    (event : APIGatewayProxyRequest) (eventJSON : Bytes) (cfg : E.Config)
    (hser : E.jsonMarshal event = .ok eventJSON)
    (hcfg : E.loadDefaultConfig ctx = .ok cfg)
    (hkey : event.StageVariables.find? "testBucketName" = none) :
    (GoDelayActionSmall.HandleRequest E ctx event).result =
        ({ StatusCode := 400, Body := "Bucket name not provided in stage variables" }, none)
      ∧ (GoDelayActionMid.HandleRequest E ctx event).result =
        ({ StatusCode := 400, Body := "Bucket name not provided in stage variables" }, none) := by
  have hidx := GoMap.index_of_find_none _ _ hkey
  simp [GoDelayActionSmall.HandleRequest, GoDelayActionMid.HandleRequest, Outcome.result,
    hser, hcfg, hidx]

/-- Witness for C2 (as amended): a request without stage variables. -/
theorem C2_missing_bucket_returns_400_witness :
    (GoDelayActionSmall.HandleRequest (mkEnv true true true true true true true "J" "A" "k") ()
        (mkEvent none "hello")).result =
        ({ StatusCode := 400, Body := "Bucket name not provided in stage variables" }, none)
      ∧ (GoDelayActionMid.HandleRequest (mkEnv true true true true true true true "J" "A" "k") ()
        (mkEvent none "hello")).result =
        ({ StatusCode := 400, Body := "Bucket name not provided in stage variables" }, none) :=
  C2_missing_bucket_returns_400 (mkEnv true true true true true true true "J" "A" "k") ()
    (mkEvent none "hello") "J" () rfl rfl rfl

/-- C2 (counterexample): the request without stage variables serializes, the
key testBucketName is absent, yet when the access configuration cannot be
loaded both storage handlers return the wrapped configuration error and the
zero response, not the 400 response: configuration loading stands between
serialization and bucket resolution. -/
theorem C2_counterexample_config_failure :
    (mkEnv true false true true true true true "J" "A" "k").jsonMarshal (mkEvent none "hello")
        = .ok "J"
      ∧ (mkEvent none "hello").StageVariables.find? "testBucketName" = none
      ∧ (GoDelayActionSmall.HandleRequest (mkEnv true false true true true true true "J" "A" "k")
          () (mkEvent none "hello")).result
          = ({}, some (.errorf "error loading AWS configuration" (.external "config")))
      ∧ (GoDelayActionSmall.HandleRequest (mkEnv true false true true true true true "J" "A" "k")
          () (mkEvent none "hello")).result
          ≠ ({ StatusCode := 400, Body := "Bucket name not provided in stage variables" }, none)
      ∧ (GoDelayActionMid.HandleRequest (mkEnv true false true true true true true "J" "A" "k")
          () (mkEvent none "hello")).result
          = ({}, some (.errorf "error loading AWS configuration" (.external "config")))
      ∧ (GoDelayActionMid.HandleRequest (mkEnv true false true true true true true "J" "A" "k")
          () (mkEvent none "hello")).result
          ≠ ({ StatusCode := 400, Body := "Bucket name not provided in stage variables" }, none) := by
  refine ⟨rfl, rfl, rfl, by decide, rfl, by decide⟩

/-! ### The asset step -/

theorem assetLoads_true (E : Env) (h : assetLoads E = true) :
    ∃ file contents data, E.osOpen "assets/large_mock.json" = .ok file
      ∧ E.readAll file = .ok contents ∧ E.jsonUnmarshal contents = .ok data := by
  unfold assetLoads at h
  split at h
  · simp at h
  · rename_i file hopen
    split at h
    · simp at h
    · rename_i contents hread
      split at h
      · simp at h
      · rename_i data hparse
        exact ⟨file, contents, data, hopen, hread, hparse⟩

/-! ### Successful round-trip -/

/-- C3: with testBucketName present and serialization, configuration loading,
put and delete all succeeding (and the asset loading, for the heavy handler),
the object-store calls of the invocation are exactly one put followed by one
delete, both on the bucket named by the stage variable and on the one
generated key, the put carrying the serialized request.  The key is generated
once, and a mock store replaying the calls ends up empty. -/
theorem C3_store_calls_put_then_delete (E : Env) (ctx : E.Context)
    (event : APIGatewayProxyRequest) (eventJSON : Bytes) (cfg : E.Config)
    (bucketName : String) (putOut : E.PutObjectOutput) (delOut : E.DeleteObjectOutput)
    (hser : E.jsonMarshal event = .ok eventJSON)
    (hcfg : E.loadDefaultConfig ctx = .ok cfg)
    (hkey : event.StageVariables.find? "testBucketName" = some bucketName)
    (hput : E.putObject (E.newFromConfig cfg) ctx
      ⟨bucketName, E.uuidNewString, string eventJSON⟩ = .ok putOut)
    (hdel : E.deleteObject (E.newFromConfig cfg) ctx ⟨bucketName, E.uuidNewString⟩
      = .ok delOut) :
    (storeCalls (GoDelayActionSmall.HandleRequest E ctx event).trace
        = [.putObject bucketName E.uuidNewString eventJSON true,
           .deleteObject bucketName E.uuidNewString true]
      ∧ (GoDelayActionSmall.HandleRequest E ctx event).trace.count
          (.uuidNewString E.uuidNewString) = 1
      ∧ MockStore.replay (GoDelayActionSmall.HandleRequest E ctx event).trace = [])
    ∧ (assetLoads E = true →
      storeCalls (GoDelayActionMid.HandleRequest E ctx event).trace
        = [.putObject bucketName E.uuidNewString eventJSON true,
           .deleteObject bucketName E.uuidNewString true]
      ∧ (GoDelayActionMid.HandleRequest E ctx event).trace.count
          (.uuidNewString E.uuidNewString) = 1
      ∧ MockStore.replay (GoDelayActionMid.HandleRequest E ctx event).trace = []) := by
  have hidx := GoMap.index_of_find_some _ _ _ hkey
  simp only [string] at hput
  refine ⟨?_, ?_⟩
  · simp [GoDelayActionSmall.HandleRequest, hser, hcfg, hidx, hput, hdel, storeCalls,
      Effect.isStoreCall, MockStore.replay, MockStore.record, string]
  · intro hasset
    obtain ⟨file, contents, data, hopen, hread, hparse⟩ := assetLoads_true E hasset
    simp [GoDelayActionMid.HandleRequest, GoDelayActionMid.readFileContents, hser, hcfg,
      hidx, hopen, hread, hparse, hput, hdel, storeCalls, Effect.isStoreCall,
      MockStore.replay, MockStore.record, string]

/-- Witness for C3: the all-success environment and a request naming bucket b. -/
theorem C3_store_calls_put_then_delete_witness :
    storeCalls (GoDelayActionSmall.HandleRequest okEnv () bucketEvent).trace
        = [.putObject "b" "k" "J" true, .deleteObject "b" "k" true]
      ∧ storeCalls (GoDelayActionMid.HandleRequest okEnv () bucketEvent).trace
        = [.putObject "b" "k" "J" true, .deleteObject "b" "k" true] :=
  have h := C3_store_calls_put_then_delete okEnv () bucketEvent "J" () "b" () ()
    rfl rfl (by decide) rfl rfl
  ⟨h.1.1, (h.2 rfl).1⟩

/-- C7: when every step succeeds (bucket present, configuration loaded, put
and delete succeed, and the asset loads for the heavy handler), both storage
handlers return no error and the response with status code 200 whose body is
the serialization of the request; the right-hand side mentions neither the
values returned by put and delete nor the generated key. -/
theorem C7_success_returns_200 (E : Env) (ctx : E.Context)
    (event : APIGatewayProxyRequest) (eventJSON : Bytes) (cfg : E.Config)
    (bucketName : String) (putOut : E.PutObjectOutput) (delOut : E.DeleteObjectOutput)
    (hser : E.jsonMarshal event = .ok eventJSON)
    (hcfg : E.loadDefaultConfig ctx = .ok cfg)
    (hkey : event.StageVariables.find? "testBucketName" = some bucketName)
    (hput : E.putObject (E.newFromConfig cfg) ctx
      ⟨bucketName, E.uuidNewString, string eventJSON⟩ = .ok putOut)
    (hdel : E.deleteObject (E.newFromConfig cfg) ctx ⟨bucketName, E.uuidNewString⟩
      = .ok delOut) :
    (GoDelayActionSmall.HandleRequest E ctx event).result
        = ({ StatusCode := 200, Body := string eventJSON }, none)
      ∧ (assetLoads E = true →
        (GoDelayActionMid.HandleRequest E ctx event).result
          = ({ StatusCode := 200, Body := string eventJSON }, none)) := by
  have hidx := GoMap.index_of_find_some _ _ _ hkey
  simp only [string] at hput
  refine ⟨?_, ?_⟩
  · simp [GoDelayActionSmall.HandleRequest, Outcome.result, hser, hcfg, hidx, hput, hdel,
      string]
  · intro hasset
    obtain ⟨file, contents, data, hopen, hread, hparse⟩ := assetLoads_true E hasset
    simp [GoDelayActionMid.HandleRequest, GoDelayActionMid.readFileContents, Outcome.result,
      hser, hcfg, hidx, hopen, hread, hparse, hput, hdel, string]

/-- Witness for C7: the all-success environment and a request naming bucket b. -/
theorem C7_success_returns_200_witness :
    (GoDelayActionSmall.HandleRequest okEnv () bucketEvent).result
        = ({ StatusCode := 200, Body := "J" }, none)
      ∧ (GoDelayActionMid.HandleRequest okEnv () bucketEvent).result
        = ({ StatusCode := 200, Body := "J" }, none) :=
  have h := C7_success_returns_200 okEnv () bucketEvent "J" () "b" () ()
    rfl rfl (by decide) rfl rfl
  ⟨h.1, h.2 rfl⟩

/-! ### Failing store calls -/

/-- C4: when the put call fails, both storage handlers return the wrapped put
error together with the zero response, and the only object-store call of the
invocation is that failed put: no delete is issued. -/
theorem C4_put_failure_returns_error (E : Env) (ctx : E.Context)
    (event : APIGatewayProxyRequest) (eventJSON : Bytes) (cfg : E.Config)
    (bucketName : String) (cause : Error)
    (hser : E.jsonMarshal event = .ok eventJSON)
    (hcfg : E.loadDefaultConfig ctx = .ok cfg)
    (hkey : event.StageVariables.find? "testBucketName" = some bucketName)
    (hput : E.putObject (E.newFromConfig cfg) ctx
      ⟨bucketName, E.uuidNewString, string eventJSON⟩ = .error cause) :
    ((GoDelayActionSmall.HandleRequest E ctx event).result
        = ({}, some (.errorf "error putting object into S3 bucket" cause))
      ∧ storeCalls (GoDelayActionSmall.HandleRequest E ctx event).trace
        = [.putObject bucketName E.uuidNewString eventJSON false]
      ∧ ∀ b k ok, Effect.deleteObject b k ok ∉
          (GoDelayActionSmall.HandleRequest E ctx event).trace)
    ∧ (assetLoads E = true →
      (GoDelayActionMid.HandleRequest E ctx event).result
        = ({}, some (.errorf "error putting object into S3 bucket" cause))
      ∧ storeCalls (GoDelayActionMid.HandleRequest E ctx event).trace
        = [.putObject bucketName E.uuidNewString eventJSON false]
      ∧ ∀ b k ok, Effect.deleteObject b k ok ∉
          (GoDelayActionMid.HandleRequest E ctx event).trace) := by
  have hidx := GoMap.index_of_find_some _ _ _ hkey
  simp only [string] at hput
  refine ⟨?_, ?_⟩
  · simp [GoDelayActionSmall.HandleRequest, Outcome.result, hser, hcfg, hidx, hput,
      storeCalls, Effect.isStoreCall, string]
  · intro hasset
    obtain ⟨file, contents, data, hopen, hread, hparse⟩ := assetLoads_true E hasset
    simp [GoDelayActionMid.HandleRequest, GoDelayActionMid.readFileContents, Outcome.result,
      hser, hcfg, hidx, hopen, hread, hparse, hput, storeCalls, Effect.isStoreCall, string]

/-- Witness for C4: the environment in which only the put call fails. -/
theorem C4_put_failure_returns_error_witness :
    (GoDelayActionSmall.HandleRequest (mkEnv true true true true true false true "J" "A" "k")
        () bucketEvent).result
        = ({}, some (.errorf "error putting object into S3 bucket" (.external "put")))
      ∧ storeCalls (GoDelayActionMid.HandleRequest
          (mkEnv true true true true true false true "J" "A" "k") () bucketEvent).trace
        = [.putObject "b" "k" "J" false] :=
  have h := C4_put_failure_returns_error (mkEnv true true true true true false true "J" "A" "k")
    () bucketEvent "J" () "b" (.external "put") rfl rfl (by decide) rfl
  ⟨h.1.1, (h.2 rfl).2.1⟩

/-- C5: when the put call succeeds and the delete call fails, both storage
handlers return the wrapped delete error together with the zero response (the
200 response is not returned).  The object-store calls of the invocation are
exactly the successful put followed by the one failed delete, with no retry
or compensating call, and a mock store replaying the calls still holds the
written object. -/
theorem C5_delete_failure_returns_error (E : Env) (ctx : E.Context)
    (event : APIGatewayProxyRequest) (eventJSON : Bytes) (cfg : E.Config)
    (bucketName : String) (putOut : E.PutObjectOutput) (cause : Error)
    (hser : E.jsonMarshal event = .ok eventJSON)
    (hcfg : E.loadDefaultConfig ctx = .ok cfg)
    (hkey : event.StageVariables.find? "testBucketName" = some bucketName)
    (hput : E.putObject (E.newFromConfig cfg) ctx
      ⟨bucketName, E.uuidNewString, string eventJSON⟩ = .ok putOut)
    (hdel : E.deleteObject (E.newFromConfig cfg) ctx ⟨bucketName, E.uuidNewString⟩
      = .error cause) :
    ((GoDelayActionSmall.HandleRequest E ctx event).result
        = ({}, some (.errorf "error deleting object from S3 bucket" cause))
      ∧ storeCalls (GoDelayActionSmall.HandleRequest E ctx event).trace
        = [.putObject bucketName E.uuidNewString eventJSON true,
           .deleteObject bucketName E.uuidNewString false]
      ∧ MockStore.replay (GoDelayActionSmall.HandleRequest E ctx event).trace
        = [((bucketName, E.uuidNewString), eventJSON)])
    ∧ (assetLoads E = true →
      (GoDelayActionMid.HandleRequest E ctx event).result
        = ({}, some (.errorf "error deleting object from S3 bucket" cause))
      ∧ storeCalls (GoDelayActionMid.HandleRequest E ctx event).trace
        = [.putObject bucketName E.uuidNewString eventJSON true,
           .deleteObject bucketName E.uuidNewString false]
      ∧ MockStore.replay (GoDelayActionMid.HandleRequest E ctx event).trace
        = [((bucketName, E.uuidNewString), eventJSON)]) := by
  have hidx := GoMap.index_of_find_some _ _ _ hkey
  simp only [string] at hput
  refine ⟨?_, ?_⟩
  · simp [GoDelayActionSmall.HandleRequest, Outcome.result, hser, hcfg, hidx, hput, hdel,
      storeCalls, Effect.isStoreCall, MockStore.replay, MockStore.record, string]
  · intro hasset
    obtain ⟨file, contents, data, hopen, hread, hparse⟩ := assetLoads_true E hasset
    simp [GoDelayActionMid.HandleRequest, GoDelayActionMid.readFileContents, Outcome.result,
      hser, hcfg, hidx, hopen, hread, hparse, hput, hdel, storeCalls, Effect.isStoreCall,
      MockStore.replay, MockStore.record, string]

/-- Witness for C5: the environment in which only the delete call fails. -/
theorem C5_delete_failure_returns_error_witness :
    (GoDelayActionSmall.HandleRequest (mkEnv true true true true true true false "J" "A" "k")
        () bucketEvent).result
        = ({}, some (.errorf "error deleting object from S3 bucket" (.external "delete")))
      ∧ storeCalls (GoDelayActionMid.HandleRequest
          (mkEnv true true true true true true false "J" "A" "k") () bucketEvent).trace
        = [.putObject "b" "k" "J" true, .deleteObject "b" "k" false] :=
  have h := C5_delete_failure_returns_error
    (mkEnv true true true true true true false "J" "A" "k")
    () bucketEvent "J" () "b" () (.external "delete") rfl rfl (by decide) rfl rfl
  ⟨h.1.1, (h.2 rfl).2.1⟩

/-! ### Asset failure -/

theorem assetLoads_false (E : Env) (h : assetLoads E = false) :
    (∃ cause, E.osOpen "assets/large_mock.json" = .error cause)
      ∨ (∃ file cause, E.osOpen "assets/large_mock.json" = .ok file
          ∧ E.readAll file = .error cause)
      ∨ (∃ file contents cause, E.osOpen "assets/large_mock.json" = .ok file
          ∧ E.readAll file = .ok contents ∧ E.jsonUnmarshal contents = .error cause) := by
  unfold assetLoads at h
  split at h
  · rename_i cause hopen
    exact Or.inl ⟨cause, hopen⟩
  · rename_i file hopen
    split at h
    · rename_i cause hread
      exact Or.inr (Or.inl ⟨file, cause, hopen, hread⟩)
    · rename_i contents hread
      split at h
      · rename_i cause hparse
        exact Or.inr (Or.inr ⟨file, contents, cause, hopen, hread, hparse⟩)
      · simp at h

/-- C6 (as amended): in the heavy storage handler, when the asset file cannot
be read or is not valid JSON, no put and no delete is attempted, for every
request.  For every request whose stage variables contain testBucketName the
handler then returns an error and the zero response, and when serialization
and configuration loading succeed that error is the wrapped asset error.  The
asset step comes after bucket resolution: when the key is absent (and
serialization and configuration loading succeed) the handler returns the 400
response without touching the asset file. -/
theorem C6_asset_failure_fails_invocation (E : Env) (ctx : E.Context)
    (event : APIGatewayProxyRequest) (hasset : assetLoads E = false) :
    storeCalls (GoDelayActionMid.HandleRequest E ctx event).trace = []
      ∧ (∀ bucketName, event.StageVariables.find? "testBucketName" = some bucketName →
          (GoDelayActionMid.HandleRequest E ctx event).response = {}
            ∧ (GoDelayActionMid.HandleRequest E ctx event).err ≠ none)
      ∧ (∀ eventJSON cfg bucketName, E.jsonMarshal event = .ok eventJSON →
          E.loadDefaultConfig ctx = .ok cfg →
          event.StageVariables.find? "testBucketName" = some bucketName →
          ∃ cause, (GoDelayActionMid.HandleRequest E ctx event).err
              = some (.errorf "error reading JSON file" cause)
            ∨ (GoDelayActionMid.HandleRequest E ctx event).err
              = some (.errorf "error parsing JSON file" cause))
      ∧ (∀ eventJSON cfg, E.jsonMarshal event = .ok eventJSON →
          E.loadDefaultConfig ctx = .ok cfg →
          event.StageVariables.find? "testBucketName" = none →
          (GoDelayActionMid.HandleRequest E ctx event).result = (bucketMissingResponse, none)
            ∧ ∀ e ∈ (GoDelayActionMid.HandleRequest E ctx event).trace,
                e.isAssetCall = false) := by
  refine ⟨?_, ?_, ?_, ?_⟩
  · rcases assetLoads_false E hasset with ⟨c, ho⟩ | ⟨f, c, ho, hr⟩ | ⟨f, cs, c, ho, hr, hp⟩ <;>
      cases hs : E.jsonMarshal event <;> cases hc : E.loadDefaultConfig ctx <;>
      rcases hi : event.StageVariables.index "testBucketName" with ⟨b, _ | _⟩ <;>
      simp [GoDelayActionMid.HandleRequest, GoDelayActionMid.readFileContents, storeCalls,
        Effect.isStoreCall, *]
  · intro bucketName hkey
    have hi := GoMap.index_of_find_some _ _ _ hkey
    rcases assetLoads_false E hasset with ⟨c, ho⟩ | ⟨f, c, ho, hr⟩ | ⟨f, cs, c, ho, hr, hp⟩ <;>
      cases hs : E.jsonMarshal event <;> cases hc : E.loadDefaultConfig ctx <;>
      simp [GoDelayActionMid.HandleRequest, GoDelayActionMid.readFileContents, *]
  · intro eventJSON cfg bucketName hs hc hkey
    have hi := GoMap.index_of_find_some _ _ _ hkey
    rcases assetLoads_false E hasset with ⟨c, ho⟩ | ⟨f, c, ho, hr⟩ | ⟨f, cs, c, ho, hr, hp⟩ <;>
      simp [GoDelayActionMid.HandleRequest, GoDelayActionMid.readFileContents, *]
  · intro eventJSON cfg hs hc hkey
    have hi := GoMap.index_of_find_none _ _ hkey
    simp [GoDelayActionMid.HandleRequest, Outcome.result, bucketMissingResponse,
      Effect.isAssetCall, *]

/-- Witness for C6 (as amended): the asset file cannot be opened and the
request names bucket b. -/
theorem C6_asset_failure_fails_invocation_witness :
    assetLoads noAssetEnv = false
      ∧ storeCalls (GoDelayActionMid.HandleRequest noAssetEnv () bucketEvent).trace = []
      ∧ (GoDelayActionMid.HandleRequest noAssetEnv () bucketEvent).response = {}
      ∧ (GoDelayActionMid.HandleRequest noAssetEnv () bucketEvent).err ≠ none :=
  have h := C6_asset_failure_fails_invocation noAssetEnv () bucketEvent rfl
  ⟨rfl, h.1, h.2.1 "b" (by decide)⟩

/-- C6 (counterexample): the asset file cannot be opened, yet for the request
without stage variables the heavy storage handler returns the 400 response
and a nil error; the invocation does not fail, because bucket resolution comes
before the asset step, which is never reached. -/
theorem C6_counterexample_missing_bucket_first :
    assetLoads noAssetEnv = false
      ∧ (GoDelayActionMid.HandleRequest noAssetEnv () (mkEvent none "hello")).result
          = ({ StatusCode := 400, Body := "Bucket name not provided in stage variables" }, none)
      ∧ (GoDelayActionMid.HandleRequest noAssetEnv () (mkEvent none "hello")).err = none
      ∧ (GoDelayActionMid.HandleRequest noAssetEnv () (mkEvent none "hello")).trace
          = [.sleep 300, .jsonMarshal true, .loadDefaultConfig true] := by
  refine ⟨rfl, rfl, rfl, rfl⟩

/-! ### Sleeps -/

theorem small_sleepSchedule (E : Env) (ctx : E.Context) (event : APIGatewayProxyRequest) :
    SleepSchedule (GoDelayActionSmall.HandleRequest E ctx event).trace := by
  cases hs : E.jsonMarshal event with
  | error e => simp [SleepSchedule, GoDelayActionSmall.HandleRequest, hs]
  | ok eventJSON =>
  cases hc : E.loadDefaultConfig ctx with
  | error e => simp [SleepSchedule, GoDelayActionSmall.HandleRequest, hs, hc]
  | ok cfg =>
  rcases hi : event.StageVariables.index "testBucketName" with ⟨b, _ | _⟩
  · simp [SleepSchedule, GoDelayActionSmall.HandleRequest, hs, hc, hi]
  cases hp : E.putObject (E.newFromConfig cfg) ctx ⟨b, E.uuidNewString, eventJSON⟩ with
  | error e => simp [SleepSchedule, GoDelayActionSmall.HandleRequest, hs, hc, hi, hp, string]
  | ok po =>
  have key : ∀ ok, SleepSchedule [.sleep 300, .jsonMarshal true, .loadDefaultConfig true,
      .newFromConfig, .uuidNewString E.uuidNewString,
      .putObject b E.uuidNewString eventJSON true, .sleep 100,
      .deleteObject b E.uuidNewString ok] := by
    intro ok
    refine ⟨by simp, Or.inr ⟨[.sleep 300, .jsonMarshal true, .loadDefaultConfig true,
      .newFromConfig, .uuidNewString E.uuidNewString], b, E.uuidNewString, eventJSON, ok,
      rfl, ?_⟩⟩
    simp [Effect.isStoreCall]
  cases hd : E.deleteObject (E.newFromConfig cfg) ctx ⟨b, E.uuidNewString⟩ with
  | error e =>
    simpa [GoDelayActionSmall.HandleRequest, hs, hc, hi, hp, hd, string] using key false
  | ok d =>
    simpa [GoDelayActionSmall.HandleRequest, hs, hc, hi, hp, hd, string] using key true

theorem mid_sleepSchedule (E : Env) (ctx : E.Context) (event : APIGatewayProxyRequest) :
    SleepSchedule (GoDelayActionMid.HandleRequest E ctx event).trace := by
  cases hs : E.jsonMarshal event with
  | error e => simp [SleepSchedule, GoDelayActionMid.HandleRequest, hs]
  | ok eventJSON =>
  cases hc : E.loadDefaultConfig ctx with
  | error e => simp [SleepSchedule, GoDelayActionMid.HandleRequest, hs, hc]
  | ok cfg =>
  rcases hi : event.StageVariables.index "testBucketName" with ⟨b, _ | _⟩
  · simp [SleepSchedule, GoDelayActionMid.HandleRequest, hs, hc, hi]
  cases ho : E.osOpen "assets/large_mock.json" with
  | error e =>
    simp [SleepSchedule, GoDelayActionMid.HandleRequest, GoDelayActionMid.readFileContents,
      hs, hc, hi, ho]
  | ok file =>
  cases hr : E.readAll file with
  | error e =>
    simp [SleepSchedule, GoDelayActionMid.HandleRequest, GoDelayActionMid.readFileContents,
      hs, hc, hi, ho, hr]
  | ok contents =>
  cases hj : E.jsonUnmarshal contents with
  | error e =>
    simp [SleepSchedule, GoDelayActionMid.HandleRequest, GoDelayActionMid.readFileContents,
      hs, hc, hi, ho, hr, hj]
  | ok data =>
  cases hp : E.putObject (E.newFromConfig cfg) ctx ⟨b, E.uuidNewString, eventJSON⟩ with
  | error e =>
    simp [SleepSchedule, GoDelayActionMid.HandleRequest, GoDelayActionMid.readFileContents,
      hs, hc, hi, ho, hr, hj, hp, string]
  | ok po =>
  have key : ∀ ok, SleepSchedule [.sleep 300, .jsonMarshal true, .loadDefaultConfig true,
      .osOpen "assets/large_mock.json" true, .readAll true, .fileClose, .jsonUnmarshal true,
      .newFromConfig, .uuidNewString E.uuidNewString,
      .putObject b E.uuidNewString eventJSON true, .sleep 100,
      .deleteObject b E.uuidNewString ok] := by
    intro ok
    refine ⟨by simp, Or.inr ⟨[.sleep 300, .jsonMarshal true, .loadDefaultConfig true,
      .osOpen "assets/large_mock.json" true, .readAll true, .fileClose, .jsonUnmarshal true,
      .newFromConfig, .uuidNewString E.uuidNewString], b, E.uuidNewString, eventJSON, ok,
      rfl, ?_⟩⟩
    simp [Effect.isStoreCall]
  cases hd : E.deleteObject (E.newFromConfig cfg) ctx ⟨b, E.uuidNewString⟩ with
  | error e =>
    simpa [GoDelayActionMid.HandleRequest, GoDelayActionMid.readFileContents,
      hs, hc, hi, ho, hr, hj, hp, hd, string] using key false
  | ok d =>
    simpa [GoDelayActionMid.HandleRequest, GoDelayActionMid.readFileContents,
      hs, hc, hi, ho, hr, hj, hp, hd, string] using key true

theorem sleepSchedule_count (t : List Effect) (h : SleepSchedule t) :
    t.count (.sleep 100) ≤ 1
      ∧ (t.count (.sleep 100) = 1 ↔ ∃ b k body, Effect.putObject b k body true ∈ t) := by
  obtain ⟨_, ⟨hput, hsl, _⟩ | ⟨pre, b, k, body, ok, rfl, hpre⟩⟩ := h
  · have h0 : t.count (.sleep 100) = 0 := List.count_eq_zero.mpr hsl
    refine ⟨by omega, ⟨fun h1 => by omega, ?_⟩⟩
    rintro ⟨b, k, body, hm⟩
    exact absurd hm (hput b k body)
  · have h0 : pre.count (.sleep 100) = 0 :=
      List.count_eq_zero.mpr (fun hm => (hpre _ hm).1 rfl)
    have h1 : (pre ++ [Effect.putObject b k body true, Effect.sleep 100,
        Effect.deleteObject b k ok]).count (.sleep 100) = 1 := by
      simp [List.count_append, h0, List.count_cons]
    refine ⟨by omega, ⟨fun _ => ⟨b, k, body, by simp⟩, fun _ => h1⟩⟩

/-- C8: with every sleep recorded as a call, the passthrough handler requests
no sleep; the delayed handler requests the 300 ms sleep first, before
serialization, and no other sleep; and both storage handlers request the
300 ms sleep first, and the 100 ms sleep at most once and exactly once if and
only if a put succeeded, right after that put and right before the delete, so
no delete is issued without it (`SleepSchedule`). -/
theorem C8_sleep_schedule (E : Env) (ctx : E.Context) (event : APIGatewayProxyRequest) :
    (∀ ms, Effect.sleep ms ∉ (GoNo.handleRequest E ctx event).trace)
      ∧ (∃ rest, (GoDelay.handleRequest E ctx event).trace = .sleep 300 :: rest
          ∧ (∀ ms, Effect.sleep ms ∉ rest) ∧ ∃ ok, Effect.jsonMarshal ok ∈ rest)
      ∧ (SleepSchedule (GoDelayActionSmall.HandleRequest E ctx event).trace
          ∧ (GoDelayActionSmall.HandleRequest E ctx event).trace.count (.sleep 100) ≤ 1
          ∧ ((GoDelayActionSmall.HandleRequest E ctx event).trace.count (.sleep 100) = 1
              ↔ ∃ b k body, Effect.putObject b k body true
                  ∈ (GoDelayActionSmall.HandleRequest E ctx event).trace))
      ∧ (SleepSchedule (GoDelayActionMid.HandleRequest E ctx event).trace
          ∧ (GoDelayActionMid.HandleRequest E ctx event).trace.count (.sleep 100) ≤ 1
          ∧ ((GoDelayActionMid.HandleRequest E ctx event).trace.count (.sleep 100) = 1
              ↔ ∃ b k body, Effect.putObject b k body true
                  ∈ (GoDelayActionMid.HandleRequest E ctx event).trace)) := by
  refine ⟨?_, ?_, ⟨small_sleepSchedule E ctx event,
      sleepSchedule_count _ (small_sleepSchedule E ctx event)⟩,
    ⟨mid_sleepSchedule E ctx event, sleepSchedule_count _ (mid_sleepSchedule E ctx event)⟩⟩
  · cases hs : E.jsonMarshal event <;> simp [GoNo.handleRequest, hs]
  · cases hs : E.jsonMarshal event <;> simp [GoDelay.handleRequest, hs]

/-! ### Heavy against light -/

/-- C9: when the asset file is read and parsed successfully, the heavy storage
handler returns the same response and the same error as the light storage
handler, and issues the same sleeps and object-store calls in the same order
with the same arguments; more precisely its trace, with the calls of the asset
step removed, is the trace of the light handler. -/
theorem C9_heavy_matches_light (E : Env) (ctx : E.Context)
    (event : APIGatewayProxyRequest) (hasset : assetLoads E = true) :
    (GoDelayActionMid.HandleRequest E ctx event).result
        = (GoDelayActionSmall.HandleRequest E ctx event).result
      ∧ sleepsAndStoreCalls (GoDelayActionMid.HandleRequest E ctx event).trace
        = sleepsAndStoreCalls (GoDelayActionSmall.HandleRequest E ctx event).trace
      ∧ (GoDelayActionMid.HandleRequest E ctx event).trace.filter (fun e => !e.isAssetCall)
        = (GoDelayActionSmall.HandleRequest E ctx event).trace := by
  obtain ⟨file, contents, data, ho, hr, hj⟩ := assetLoads_true E hasset
  cases hs : E.jsonMarshal event with
  | error e =>
    simp [GoDelayActionMid.HandleRequest, GoDelayActionSmall.HandleRequest, Outcome.result,
      sleepsAndStoreCalls, Effect.isSleep, Effect.isStoreCall, Effect.isAssetCall, hs]
  | ok eventJSON =>
  cases hc : E.loadDefaultConfig ctx with
  | error e =>
    simp [GoDelayActionMid.HandleRequest, GoDelayActionSmall.HandleRequest, Outcome.result,
      sleepsAndStoreCalls, Effect.isSleep, Effect.isStoreCall, Effect.isAssetCall, hs, hc]
  | ok cfg =>
  rcases hi : event.StageVariables.index "testBucketName" with ⟨b, _ | _⟩
  · simp [GoDelayActionMid.HandleRequest, GoDelayActionSmall.HandleRequest, Outcome.result,
      sleepsAndStoreCalls, Effect.isSleep, Effect.isStoreCall, Effect.isAssetCall, hs, hc, hi]
  cases hp : E.putObject (E.newFromConfig cfg) ctx ⟨b, E.uuidNewString, eventJSON⟩ with
  | error e =>
    simp [GoDelayActionMid.HandleRequest, GoDelayActionMid.readFileContents,
      GoDelayActionSmall.HandleRequest, Outcome.result, sleepsAndStoreCalls, Effect.isSleep,
      Effect.isStoreCall, Effect.isAssetCall, hs, hc, hi, ho, hr, hj, hp, string]
  | ok po =>
  cases hd : E.deleteObject (E.newFromConfig cfg) ctx ⟨b, E.uuidNewString⟩ <;>
    simp [GoDelayActionMid.HandleRequest, GoDelayActionMid.readFileContents,
      GoDelayActionSmall.HandleRequest, Outcome.result, sleepsAndStoreCalls, Effect.isSleep,
      Effect.isStoreCall, Effect.isAssetCall, hs, hc, hi, ho, hr, hj, hp, hd, string]

/-- Witness for C9: the all-success environment and a request naming bucket b. -/
theorem C9_heavy_matches_light_witness :
    assetLoads okEnv = true
      ∧ (GoDelayActionMid.HandleRequest okEnv () bucketEvent).result
        = (GoDelayActionSmall.HandleRequest okEnv () bucketEvent).result
      ∧ sleepsAndStoreCalls (GoDelayActionMid.HandleRequest okEnv () bucketEvent).trace
        = [.sleep 300, .putObject "b" "k" "J" true, .sleep 100, .deleteObject "b" "k" true] :=
  have h := C9_heavy_matches_light okEnv () bucketEvent rfl
  ⟨rfl, h.1, h.2.1.trans (by decide)⟩

/-! ### Presence, not value, of the bucket key -/

theorem small_result_of_absent (E : Env) (ctx : E.Context)
    (event : APIGatewayProxyRequest) (eventJSON : Bytes) (cfg : E.Config)
    (hser : E.jsonMarshal event = .ok eventJSON)
    (hcfg : E.loadDefaultConfig ctx = .ok cfg)
    (hkey : event.StageVariables.find? "testBucketName" = none) :
    (GoDelayActionSmall.HandleRequest E ctx event).result = (bucketMissingResponse, none) := by
  have hi := GoMap.index_of_find_none _ _ hkey
  simp [GoDelayActionSmall.HandleRequest, Outcome.result, bucketMissingResponse, hser, hcfg, hi]

theorem mid_result_of_absent (E : Env) (ctx : E.Context)
    (event : APIGatewayProxyRequest) (eventJSON : Bytes) (cfg : E.Config)
    (hser : E.jsonMarshal event = .ok eventJSON)
    (hcfg : E.loadDefaultConfig ctx = .ok cfg)
    (hkey : event.StageVariables.find? "testBucketName" = none) :
    (GoDelayActionMid.HandleRequest E ctx event).result = (bucketMissingResponse, none) := by
  have hi := GoMap.index_of_find_none _ _ hkey
  simp [GoDelayActionMid.HandleRequest, Outcome.result, bucketMissingResponse, hser, hcfg, hi]

theorem small_result_of_present (E : Env) (ctx : E.Context)
    (event : APIGatewayProxyRequest) (eventJSON : Bytes) (cfg : E.Config) (b : String)
    (hser : E.jsonMarshal event = .ok eventJSON)
    (hcfg : E.loadDefaultConfig ctx = .ok cfg)
    (hkey : event.StageVariables.find? "testBucketName" = some b) :
    (GoDelayActionSmall.HandleRequest E ctx event).result ≠ (bucketMissingResponse, none)
      ∧ ∃ ok, Effect.putObject b E.uuidNewString eventJSON ok
          ∈ (GoDelayActionSmall.HandleRequest E ctx event).trace := by
  have hi := GoMap.index_of_find_some _ _ _ hkey
  cases hp : E.putObject (E.newFromConfig cfg) ctx ⟨b, E.uuidNewString, eventJSON⟩ with
  | error e =>
    simp [GoDelayActionSmall.HandleRequest, Outcome.result, bucketMissingResponse, hser, hcfg,
      hi, hp, string]
  | ok po =>
    cases hd : E.deleteObject (E.newFromConfig cfg) ctx ⟨b, E.uuidNewString⟩ <;>
      simp [GoDelayActionSmall.HandleRequest, Outcome.result, bucketMissingResponse, hser,
        hcfg, hi, hp, hd, string]

theorem mid_result_of_present (E : Env) (ctx : E.Context)
    (event : APIGatewayProxyRequest) (eventJSON : Bytes) (cfg : E.Config) (b : String)
    (hser : E.jsonMarshal event = .ok eventJSON)
    (hcfg : E.loadDefaultConfig ctx = .ok cfg)
    (hkey : event.StageVariables.find? "testBucketName" = some b) :
    (GoDelayActionMid.HandleRequest E ctx event).result ≠ (bucketMissingResponse, none)
      ∧ (assetLoads E = true →
          ∃ ok, Effect.putObject b E.uuidNewString eventJSON ok
            ∈ (GoDelayActionMid.HandleRequest E ctx event).trace) := by
  have hi := GoMap.index_of_find_some _ _ _ hkey
  cases ho : E.osOpen "assets/large_mock.json" with
  | error e =>
    simp [GoDelayActionMid.HandleRequest, GoDelayActionMid.readFileContents, Outcome.result,
      bucketMissingResponse, assetLoads, hser, hcfg, hi, ho]
  | ok file =>
  cases hr : E.readAll file with
  | error e =>
    simp [GoDelayActionMid.HandleRequest, GoDelayActionMid.readFileContents, Outcome.result,
      bucketMissingResponse, assetLoads, hser, hcfg, hi, ho, hr]
  | ok contents =>
  cases hj : E.jsonUnmarshal contents with
  | error e =>
    simp [GoDelayActionMid.HandleRequest, GoDelayActionMid.readFileContents, Outcome.result,
      bucketMissingResponse, assetLoads, hser, hcfg, hi, ho, hr, hj]
  | ok data =>
  cases hp : E.putObject (E.newFromConfig cfg) ctx ⟨b, E.uuidNewString, eventJSON⟩ with
  | error e =>
    simp [GoDelayActionMid.HandleRequest, GoDelayActionMid.readFileContents, Outcome.result,
      bucketMissingResponse, hser, hcfg, hi, ho, hr, hj, hp, string]
  | ok po =>
    cases hd : E.deleteObject (E.newFromConfig cfg) ctx ⟨b, E.uuidNewString⟩ <;>
      simp [GoDelayActionMid.HandleRequest, GoDelayActionMid.readFileContents, Outcome.result,
        bucketMissingResponse, hser, hcfg, hi, ho, hr, hj, hp, hd, string]

/-- C10 (as amended): given that serialization and configuration loading
succeed, both storage handlers return the 400 response if and only if the key
testBucketName is absent from the stage variables (a nil map has no keys).
When the key maps to the empty string neither handler returns the 400
response; the light handler issues a put with the empty string as bucket
name, and the heavy handler does so when its asset loads. -/
theorem C10_bucket_key_presence_decides (E : Env) (ctx : E.Context)
    (event : APIGatewayProxyRequest) (eventJSON : Bytes) (cfg : E.Config)
    (hser : E.jsonMarshal event = .ok eventJSON)
    (hcfg : E.loadDefaultConfig ctx = .ok cfg) :
    ((GoDelayActionSmall.HandleRequest E ctx event).result = (bucketMissingResponse, none)
        ↔ event.StageVariables.find? "testBucketName" = none)
      ∧ ((GoDelayActionMid.HandleRequest E ctx event).result = (bucketMissingResponse, none)
        ↔ event.StageVariables.find? "testBucketName" = none)
      ∧ (event.StageVariables.find? "testBucketName" = some "" →
          (GoDelayActionSmall.HandleRequest E ctx event).result ≠ (bucketMissingResponse, none)
            ∧ (∃ ok, Effect.putObject "" E.uuidNewString eventJSON ok
                ∈ (GoDelayActionSmall.HandleRequest E ctx event).trace)
            ∧ (GoDelayActionMid.HandleRequest E ctx event).result
                ≠ (bucketMissingResponse, none)
            ∧ (assetLoads E = true →
                ∃ ok, Effect.putObject "" E.uuidNewString eventJSON ok
                  ∈ (GoDelayActionMid.HandleRequest E ctx event).trace)) := by
  refine ⟨⟨fun h => ?_, small_result_of_absent E ctx event eventJSON cfg hser hcfg⟩,
    ⟨fun h => ?_, mid_result_of_absent E ctx event eventJSON cfg hser hcfg⟩, fun hkey => ?_⟩
  · cases hf : event.StageVariables.find? "testBucketName" with
    | none => rfl
    | some b => exact absurd h (small_result_of_present E ctx event eventJSON cfg b hser hcfg hf).1
  · cases hf : event.StageVariables.find? "testBucketName" with
    | none => rfl
    | some b => exact absurd h (mid_result_of_present E ctx event eventJSON cfg b hser hcfg hf).1
  · have hsmall := small_result_of_present E ctx event eventJSON cfg "" hser hcfg hkey
    have hmid := mid_result_of_present E ctx event eventJSON cfg "" hser hcfg hkey
    exact ⟨hsmall.1, hsmall.2, hmid.1, hmid.2⟩

/-- Witness for C10 (as amended): every call succeeds and testBucketName maps
to the empty string. -/
theorem C10_bucket_key_presence_decides_witness :
    emptyBucketEvent.StageVariables.find? "testBucketName" = some ""
      ∧ (GoDelayActionSmall.HandleRequest okEnv () emptyBucketEvent).result
          ≠ (bucketMissingResponse, none)
      ∧ (∃ ok, Effect.putObject "" "k" "J" ok
          ∈ (GoDelayActionSmall.HandleRequest okEnv () emptyBucketEvent).trace)
      ∧ ((GoDelayActionMid.HandleRequest okEnv () (mkEvent none "hello")).result
          = (bucketMissingResponse, none)
        ↔ (mkEvent none "hello").StageVariables.find? "testBucketName" = none) :=
  have h := C10_bucket_key_presence_decides okEnv () emptyBucketEvent "J" () rfl rfl
  have h0 := C10_bucket_key_presence_decides okEnv () (mkEvent none "hello") "J" () rfl rfl
  ⟨by decide, (h.2.2 (by decide)).1, (h.2.2 (by decide)).2.1, h0.2.1⟩

/-- C10 (counterexample): serialization and configuration loading succeed and
testBucketName maps to the empty string, yet the heavy storage handler issues
no put: its asset file cannot be opened, so it returns the wrapped asset error
after bucket resolution and before any object-store call. -/
theorem C10_counterexample_heavy_asset_failure :
    noAssetEnv.jsonMarshal emptyBucketEvent = .ok "J"
      ∧ noAssetEnv.loadDefaultConfig () = .ok ()
      ∧ emptyBucketEvent.StageVariables.find? "testBucketName" = some ""
      ∧ (GoDelayActionMid.HandleRequest noAssetEnv () emptyBucketEvent).trace
          = [.sleep 300, .jsonMarshal true, .loadDefaultConfig true,
             .osOpen "assets/large_mock.json" false]
      ∧ storeCalls (GoDelayActionMid.HandleRequest noAssetEnv () emptyBucketEvent).trace = []
      ∧ (GoDelayActionMid.HandleRequest noAssetEnv () emptyBucketEvent).result
          = ({}, some (.errorf "error reading JSON file"
              (.errorf "error opening file" (.external "open")))) := by
  refine ⟨rfl, rfl, by decide, by decide, by decide, by decide⟩

end RestApiPerf
